import Mathlib

/-
  Verification development for the tcpdump supervision service
  (src/tcpdump_service.py).

  The Python module is shallowly embedded as Lean functions over an
  explicit supervisor state.  The registry (the module-level dict
  `processes`) is an insertion-ordered association list from interface
  name to the pair of child-process handle and diagnostic-sink handle,
  matching CPython dict semantics (assignment to an existing key updates
  in place and keeps its position; assignment to a fresh key appends).
  Side effects (opening and closing stderr sinks, spawning children,
  sleeping, logging, sending signals to children) are recorded as an
  event trace.  Process ids and sink ids are allocated sequentially by
  the state, mirroring the fact that each Popen and each open produces a
  fresh handle.  Operations of the environment that can fail in Python
  (poll results, subprocess termination, file close) are supplied by
  per-unit environment records, so that the exception structure of the
  source (which operations are guarded by try blocks and which are not)
  is represented faithfully.
-/

namespace TCPCapture

/-- Configuration values read from /etc/tcpdump_service.conf at module
load: interface list, output directory, path of the tcpdump binary,
rotation size, retained-file count, and passthrough arguments. -/
structure Config where
  interfaces : List String
  outputDir : String
  tcpdumpBin : String
  rotateSizeMB : Nat
  maxRotatedFiles : Nat
  extraArgs : List String
deriving DecidableEq, Repr

/-- Comma-splitting with whitespace stripping and removal of empty
items, as used for the `interfaces` and `extra_args` settings
(src/tcpdump_service.py lines 29 and 34). -/
def parseCommaList (s : String) : List String :=
  ((s.split (fun c => c = ',')).map String.trim).filter (fun t => t ≠ "")

/-- Primary capture file path for an interface: OUTPUT_DIR/iface.pcap. -/
def pcapPath (cfg : Config) (iface : String) : String :=
  cfg.outputDir ++ "/" ++ iface ++ ".pcap"

/-- Diagnostic sink path for an interface: OUTPUT_DIR/iface.stderr.log. -/
def stderrPath (cfg : Config) (iface : String) : String :=
  cfg.outputDir ++ "/" ++ iface ++ ".stderr.log"

/-- build_cmd (src/tcpdump_service.py lines 42-54): the tcpdump argument
vector for one interface, with the extra passthrough arguments appended
at the end. -/
def build_cmd (cfg : Config) (iface : String) (outBase : String) : List String :=
  [cfg.tcpdumpBin,
   "-i", iface,
   "-s", "0",
   "-w", outBase ++ "/" ++ iface ++ ".pcap",
   "-C", toString cfg.rotateSizeMB,
   "-W", toString cfg.maxRotatedFiles] ++ cfg.extraArgs

/-- Observable side effects of the supervisor, recorded as a trace. -/
inductive Event where
  | openSink (sid : Nat) (path : String) (append : Bool)
  | closeSink (sid : Nat)
  | spawn (pid : Nat) (cmd : List String) (stdoutDiscarded : Bool) (stderrSink : Nat)
  | sleep (seconds : Nat)
  | terminate (pid : Nat)
  | waitProc (pid : Nat) (timeout : Nat) (timedOut : Bool)
  | kill (pid : Nat)
  | log (msg : String)
deriving DecidableEq, Repr

/-- One registry value: the child-process handle and the diagnostic-sink
handle, i.e. the Python pair (p, f_err). -/
structure Entry where
  pid : Nat
  sink : Nat
deriving DecidableEq, Repr

/-- Bookkeeping record for a sink that was opened at some point: its id,
the unit it was opened for, the path, and whether it was opened in
append mode. -/
structure SinkRec where
  sid : Nat
  unit : String
  path : String
  append : Bool
deriving DecidableEq, Repr

/-- The supervisor state: the registry (the `processes` dict), the set of
currently open sinks, the log of all sinks ever opened, the allocation
counters for fresh pids and sink ids, and the event trace. -/
structure SupState where
  registry : List (String × Entry)
  openSinks : List Nat
  sinks : List SinkRec
  nextPid : Nat
  nextSink : Nat
  events : List Event
deriving DecidableEq, Repr

/-- The state at module load: empty registry, nothing open, no events. -/
def initState : SupState :=
  { registry := [], openSinks := [], sinks := [], nextPid := 0, nextSink := 0, events := [] }

/-- Dict lookup on the registry (first binding wins; bindings are unique
in states reachable from initState). -/
def lookupReg : List (String × Entry) → String → Option Entry
  | [], _ => none
  | (k, v) :: rest, x => if k = x then some v else lookupReg rest x

/-- CPython dict assignment `d[k] = v`: update in place when the key is
present, append otherwise. -/
def dictSet (d : List (String × Entry)) (k : String) (v : Entry) : List (String × Entry) :=
  if d.any (fun p => p.1 = k) then
    d.map (fun p => if p.1 = k then (k, v) else p)
  else d ++ [(k, v)]

/-- The key list of the registry. -/
def regKeys (d : List (String × Entry)) : List String := d.map Prod.fst

/-- One iteration of start_all (src/tcpdump_service.py lines 58-64):
build the command, open the stderr sink in append mode, spawn the child
with stdout discarded and stderr redirected to the sink, and assign the
pair into the registry. -/
def startOne (cfg : Config) (st : SupState) (iface : String) : SupState :=
  let cmd := build_cmd cfg iface cfg.outputDir
  let sid := st.nextSink
  let pid := st.nextPid
  { registry := dictSet st.registry iface { pid := pid, sink := sid },
    openSinks := st.openSinks ++ [sid],
    sinks := st.sinks ++ [{ sid := sid, unit := iface, path := stderrPath cfg iface, append := true }],
    nextPid := pid + 1,
    nextSink := sid + 1,
    events := st.events ++
      [Event.openSink sid (stderrPath cfg iface) true,
       Event.spawn pid cmd true sid,
       Event.log ("Started tcpdump for " ++ iface)] }

/-- start_all (src/tcpdump_service.py lines 57-64): start every
configured interface in configuration order. -/
def start_all (cfg : Config) (st : SupState) : SupState :=
  cfg.interfaces.foldl (startOne cfg) st

/-- Per-unit behaviour of the environment during one monitoring pass:
the result of p.poll() (none while running, some code after exit),
whether reopening the stderr sink succeeds, whether respawning
succeeds, and whether closing the stale sink raises (that exception is
suppressed by the loop's try block at lines 116-119). -/
structure UnitEnv where
  poll : Option Int
  openOk : Bool
  spawnOk : Bool
  closeRaises : Bool
deriving DecidableEq, Repr

/-- An exception escaping the monitoring loop: the restart path guards
only the close of the stale sink, so a failing open or Popen during a
restart propagates. -/
inductive Crash where
  | openFailed (iface : String)
  | spawnFailed (iface : String)
deriving DecidableEq, Repr

/-- Handling of one snapshot item inside the monitoring loop
(src/tcpdump_service.py lines 112-125).  When poll reports an exit: log
the exit code, close the stale sink (errors suppressed), sleep the
fixed 2-unit backoff, rebuild the command, open a fresh append-mode
sink, spawn the replacement, and overwrite the registry entry.  The
open and the spawn are not inside any try block, so their failure
escapes as a Crash together with the state reached so far. -/
def monitorUnit (cfg : Config) (env : String → UnitEnv) (st : SupState) (u : String × Entry) :
    Except (Crash × SupState) SupState :=
  match (env u.1).poll with
  | none => Except.ok st
  | some ret =>
    let closed : SupState := { st with
      openSinks := st.openSinks.erase u.2.sink,
      events := st.events ++
        [Event.log ("tcpdump for " ++ u.1 ++ " exited with code " ++ toString ret ++ "; restarting in 2s..."),
         Event.closeSink u.2.sink,
         Event.sleep 2] }
    if (env u.1).openOk = false then Except.error (Crash.openFailed u.1, closed)
    else
      let sid := closed.nextSink
      let opened : SupState := { closed with
        nextSink := sid + 1,
        openSinks := closed.openSinks ++ [sid],
        sinks := closed.sinks ++ [{ sid := sid, unit := u.1, path := stderrPath cfg u.1, append := true }],
        events := closed.events ++ [Event.openSink sid (stderrPath cfg u.1) true] }
      if (env u.1).spawnOk = false then Except.error (Crash.spawnFailed u.1, opened)
      else
        let pid := opened.nextPid
        Except.ok { opened with
          nextPid := pid + 1,
          registry := dictSet opened.registry u.1 { pid := pid, sink := sid },
          events := opened.events ++
            [Event.spawn pid (build_cmd cfg u.1 cfg.outputDir) true sid,
             Event.log ("Restarted tcpdump for " ++ u.1)] }

/-- Folding monitorUnit over the snapshot taken by
`list(processes.items())`, stopping at the first escaping exception. -/
def monitorGo (cfg : Config) (env : String → UnitEnv) :
    List (String × Entry) → SupState → Except (Crash × SupState) SupState
  | [], st => Except.ok st
  | u :: rest, st =>
    match monitorUnit cfg env st u with
    | Except.ok st1 => monitorGo cfg env rest st1
    | Except.error e => Except.error e

/-- One full pass of the monitoring loop body (src/tcpdump_service.py
lines 112-125): iterate over a snapshot of the registry taken at the
start of the pass. -/
def monitorPass (cfg : Config) (env : String → UnitEnv) (st : SupState) :
    Except (Crash × SupState) SupState :=
  monitorGo cfg env st.registry st

/-- Per-unit behaviour of the environment during stop_all: whether
p.terminate() raises, how long the unit takes to exit after terminate
(the wait(timeout=5) returns after min(waitTime, 5) and raises
TimeoutExpired when waitTime exceeds 5), whether p.kill() raises, how
long the unit takes to die after kill, and whether closing the sink
raises (suppressed by the bare except in the finally block). -/
structure StopEnv where
  terminateRaises : Bool
  waitTime : Nat
  killRaises : Bool
  killWaitTime : Nat
  closeRaises : Bool
deriving DecidableEq, Repr

/-- The events produced while stopping one unit
(src/tcpdump_service.py lines 68-83), and the wall-clock time spent in
the bounded waits.  All exceptions of the termination sequence are
caught by the per-unit except block and logged; the close in the
finally block is attempted in every branch with its own errors
suppressed. -/
def stopCore (b : StopEnv) (iface : String) (pid : Nat) : List Event × Nat :=
  if b.terminateRaises then
    ([Event.log ("Error stopping " ++ iface)], 0)
  else if b.waitTime ≤ 5 then
    ([Event.terminate pid, Event.waitProc pid 5 false], b.waitTime)
  else if b.killRaises then
    ([Event.terminate pid, Event.waitProc pid 5 true, Event.log ("Error stopping " ++ iface)], 5)
  else if b.killWaitTime ≤ 5 then
    ([Event.terminate pid, Event.waitProc pid 5 true, Event.kill pid, Event.waitProc pid 5 false],
     5 + b.killWaitTime)
  else
    ([Event.terminate pid, Event.waitProc pid 5 true, Event.kill pid, Event.waitProc pid 5 true,
      Event.log ("Error stopping " ++ iface)], 10)

/-- The whole event block appended while stopping one unit, including
the status line printed before terminate and the close of the sink in
the finally block. -/
def stopBlock (senv : String → StopEnv) (u : String × Entry) : List Event :=
  [Event.log ("Stopping tcpdump for " ++ u.1)] ++ (stopCore (senv u.1) u.1 u.2.pid).1 ++
    [Event.closeSink u.2.sink]

/-- Wall-clock time spent stopping one unit. -/
def stopTime (senv : String → StopEnv) (u : String × Entry) : Nat :=
  (stopCore (senv u.1) u.1 u.2.pid).2

/-- Stopping one unit: append its event block, close its sink. -/
def stopOne (senv : String → StopEnv) (st : SupState) (u : String × Entry) : SupState × Nat :=
  ({ st with
      openSinks := st.openSinks.erase u.2.sink,
      events := st.events ++ stopBlock senv u },
   stopTime senv u)

/-- stop_all (src/tcpdump_service.py lines 67-84): stop every unit of
the registry in iteration order, then clear the registry.  Returns the
final state and the total time spent in bounded waits. -/
def stop_all (senv : String → StopEnv) (st : SupState) : SupState × Nat :=
  let folded := st.registry.foldl
    (fun (acc : SupState × Nat) u =>
      let r := stopOne senv acc.1 u
      (r.1, acc.2 + r.2))
    (st, 0)
  ({ folded.1 with registry := [] }, folded.2)

/-- Success or failure of each step of process startup, before any child
is spawned: whether the configuration file is readable, whether the
module-level OUTPUT_DIR.mkdir at line 37 succeeds, whether the tcpdump
binary exists, whether OUTPUT_DIR exists when main() checks it at line
101, and whether the mkdir inside main() succeeds. -/
structure StartupEnv where
  configReadable : Bool
  mkdirOkAtInit : Bool
  binExists : Bool
  dirExistsAtMain : Bool
  mkdirOkAtMain : Bool
deriving DecidableEq, Repr

/-- Outcome of the startup sequence: the process terminated with an exit
status before spawning anything, or it reached start_all. -/
inductive StartupOutcome where
  | exited (code : Nat)
  | started
deriving DecidableEq, Repr

/-- The startup control flow of the module (src/tcpdump_service.py
lines 21-37 at module scope and 97-106 inside main).  An unreadable
configuration hits the explicit sys.exit(1).  A failing mkdir at module
scope (line 37) is not guarded by any handler: the exception propagates
out of module initialisation and CPython terminates with status 1.  A
missing tcpdump binary hits the explicit sys.exit(2).  Only when the
output directory does not exist at the time of main's check does the
guarded mkdir at lines 102-106 run, exiting 2 on failure. -/
def startup (env : StartupEnv) : StartupOutcome :=
  if env.configReadable = false then StartupOutcome.exited 1
  else if env.mkdirOkAtInit = false then StartupOutcome.exited 1
  else if env.binExists = false then StartupOutcome.exited 2
  else if env.dirExistsAtMain = false && env.mkdirOkAtMain = false then StartupOutcome.exited 2
  else StartupOutcome.started

/-- Number of spawn events in a trace. -/
def spawnCount (evs : List Event) : Nat :=
  (evs.filter (fun e => match e with | Event.spawn _ _ _ _ => true | _ => false)).length

/-- Number of openSink events in a trace. -/
def openCount (evs : List Event) : Nat :=
  (evs.filter (fun e => match e with | Event.openSink _ _ _ => true | _ => false)).length

/-- Number of backoff sleeps (sleep 2) in a trace. -/
def backoffCount (evs : List Event) : Nat :=
  (evs.filter (fun e => e = Event.sleep 2)).length

/-- Number of closeSink events for a given sink id in a trace. -/
def closeCountFor (evs : List Event) (sid : Nat) : Nat :=
  (evs.filter (fun e => e = Event.closeSink sid)).length

/-- Number of units of a registry snapshot whose poll reports an exit. -/
def detectedCount (env : String → UnitEnv) (reg : List (String × Entry)) : Nat :=
  (reg.filter (fun u => ((env u.1).poll).isSome)).length

/-- Number of sinks that were opened for the given unit and are still
open in the given state. -/
def countOpenSinksFor (st : SupState) (iface : String) : Nat :=
  (st.sinks.filter (fun s => s.unit = iface ∧ s.sid ∈ st.openSinks)).length

/-- The crash, if any, of a monitoring pass result. -/
def crashOf : Except (Crash × SupState) SupState → Option Crash
  | Except.error e => some e.1
  | Except.ok _ => none

/-- Index of the last occurrence of x in l (meaningful when x is a
member): the distance from the head to the final position holding x. -/
def lastOcc : List String → String → Nat
  | [], _ => 0
  | _ :: t, x => if x ∈ t then lastOcc t x + 1 else 0

/-- Closed form of the event trace produced by start_all, with the next
free pid and sink id as parameters. -/
def startEvents (cfg : Config) : Nat → Nat → List String → List Event
  | _, _, [] => []
  | p, s, i :: t =>
    [Event.openSink s (stderrPath cfg i) true,
     Event.spawn p (build_cmd cfg i cfg.outputDir) true s,
     Event.log ("Started tcpdump for " ++ i)] ++ startEvents cfg (p + 1) (s + 1) t

/-- Closed form of the sink log produced by start_all. -/
def startSinks (cfg : Config) : Nat → List String → List SinkRec
  | _, [] => []
  | s, i :: t =>
    { sid := s, unit := i, path := stderrPath cfg i, append := true } :: startSinks cfg (s + 1) t

/-- The list of n consecutive naturals starting at k. -/
def sidSeq : Nat → Nat → List Nat
  | _, 0 => []
  | k, n + 1 => k :: sidSeq (k + 1) n

/-
  Interleaving model for the signal path.

  In CPython, signal.signal installs a handler that the interpreter runs
  in the main thread between two bytecode instructions — at any point of
  the monitoring loop, including inside the blocking time.sleep calls.
  handle_sig (src/tcpdump_service.py lines 87-90) performs the whole
  shutdown synchronously inside that handler context: it calls stop_all
  and then sys.exit(0).  The model below makes each phase of a restart a
  separate small step of a transition relation, and lets the handler
  step fire from every non-exited state, which is exactly the liberty
  the interpreter has.
-/

/-- Position of the main loop's thread of control: at the top of the
while loop between iterations, or inside the restart of a unit (after
the stale sink was closed, and after the 2-unit backoff sleep). -/
inductive PC where
  | idle
  | closedOld (iface : String)
  | sleptBackoff (iface : String)
deriving DecidableEq, Repr

/-- Whole-system state for the interleaving model: supervisor state,
main-loop control position, whether a signal has been delivered and is
pending, the exit status if the process has terminated, and how many
shutdown sequences have run. -/
structure SysState where
  sup : SupState
  pc : PC
  sigPending : Bool
  exitedWith : Option Nat
  shutdowns : Nat
deriving DecidableEq, Repr

/-- Append a sleep event to the supervisor state. -/
def sleepEvent (st : SupState) (n : Nat) : SupState :=
  { st with events := st.events ++ [Event.sleep n] }

/-- The first half of a restart inside the monitoring loop: log the exit
code and close the stale sink (lines 115-119). -/
def closeStale (st : SupState) (iface : String) (e : Entry) (ret : Int) : SupState :=
  { st with
    openSinks := st.openSinks.erase e.sink,
    events := st.events ++
      [Event.log ("tcpdump for " ++ iface ++ " exited with code " ++ toString ret ++ "; restarting in 2s..."),
       Event.closeSink e.sink] }

/-- The second half of a restart: reopen the sink, respawn, overwrite
the registry entry (lines 121-125). -/
def respawnUnit (cfg : Config) (st : SupState) (iface : String) : SupState :=
  let sid := st.nextSink
  let pid := st.nextPid
  { st with
    nextSink := sid + 1,
    nextPid := pid + 1,
    openSinks := st.openSinks ++ [sid],
    sinks := st.sinks ++ [{ sid := sid, unit := iface, path := stderrPath cfg iface, append := true }],
    registry := dictSet st.registry iface { pid := pid, sink := sid },
    events := st.events ++
      [Event.openSink sid (stderrPath cfg iface) true,
       Event.spawn pid (build_cmd cfg iface cfg.outputDir) true sid,
       Event.log ("Restarted tcpdump for " ++ iface)] }

/-- handle_sig (src/tcpdump_service.py lines 87-90), run synchronously
in the handler context: log, run stop_all on the current registry, and
terminate the process with status 0. -/
def handle_sig (senv : String → StopEnv) (s : SysState) : SysState :=
  { s with
    sup := (stop_all senv
      { s.sup with events := s.sup.events ++ [Event.log "Received signal, shutting down..."] }).1,
    sigPending := false,
    exitedWith := some 0,
    shutdowns := s.shutdowns + 1 }

/-- Small-step transition relation of the running system.  The handler
step is enabled in every non-exited state with a pending signal — the
source installs handle_sig directly via signal.signal, so the shutdown
sequence runs wherever the interpreter happens to be, with no
cooperative flag and no lock. -/
inductive SysStep (cfg : Config) (menv : String → UnitEnv) (senv : String → StopEnv) :
    SysState → SysState → Prop where
  | sigArrive (s : SysState) (h1 : s.sigPending = false) (h2 : s.exitedWith = none) :
      SysStep cfg menv senv s { s with sigPending := true }
  | handler (s : SysState) (h1 : s.sigPending = true) (h2 : s.exitedWith = none) :
      SysStep cfg menv senv s (handle_sig senv s)
  | tick (s : SysState) (h1 : s.pc = PC.idle) (h2 : s.exitedWith = none) :
      SysStep cfg menv senv s { s with sup := sleepEvent s.sup 1 }
  | detect (s : SysState) (iface : String) (e : Entry) (ret : Int)
      (h1 : s.pc = PC.idle) (h2 : s.exitedWith = none)
      (h3 : lookupReg s.sup.registry iface = some e) (h4 : (menv iface).poll = some ret) :
      SysStep cfg menv senv s { s with pc := PC.closedOld iface, sup := closeStale s.sup iface e ret }
  | backoff (s : SysState) (iface : String) (h1 : s.pc = PC.closedOld iface) (h2 : s.exitedWith = none) :
      SysStep cfg menv senv s { s with pc := PC.sleptBackoff iface, sup := sleepEvent s.sup 2 }
  | respawn (s : SysState) (iface : String) (h1 : s.pc = PC.sleptBackoff iface) (h2 : s.exitedWith = none) :
      SysStep cfg menv senv s { s with pc := PC.idle, sup := respawnUnit cfg s.sup iface }

/-- A restart of the given unit is in flight: the stale sink has been
closed but the replacement has not yet been recorded in the registry. -/
def restartInFlight (p : PC) (iface : String) : Prop :=
  p = PC.closedOld iface ∨ p = PC.sleptBackoff iface

/-! Concrete exemplar configurations and environments, used to evaluate
the definitions on closed inputs. -/

/-- The three-interface configuration of the spec scenario. -/
def cfgEx : Config :=
  { interfaces := ["eth0", "eth1", "wlan0"],
    outputDir := "/var/log/tcpdump",
    tcpdumpBin := "/usr/bin/tcpdump",
    rotateSizeMB := 100,
    maxRotatedFiles := 20,
    extraArgs := ["-n"] }

/-- A configuration whose comma-separated interface list names eth0
twice. -/
def cfgDup : Config :=
  { interfaces := ["eth0", "eth0"],
    outputDir := "/var/log/tcpdump",
    tcpdumpBin := "/usr/bin/tcpdump",
    rotateSizeMB := 100,
    maxRotatedFiles := 20,
    extraArgs := [] }

/-- The state right after start_all on the exemplar configuration. -/
def stEx : SupState := start_all cfgEx initState

/-- A monitoring environment in which every unit has exited with code 1
and the restart operations succeed; closing the stale sink raises (and
is suppressed). -/
def envRestartEx : String → UnitEnv :=
  fun _ => { poll := some 1, openOk := true, spawnOk := true, closeRaises := true }

/-- A monitoring environment in which a unit has exited and reopening
its diagnostic sink fails. -/
def envOpenFailEx : String → UnitEnv :=
  fun _ => { poll := some 1, openOk := false, spawnOk := true, closeRaises := false }

/-- The supervisor state after one monitoring pass over stEx in the
environment envRestartEx. -/
def stExAfterPass : SupState :=
  match monitorPass cfgEx envRestartEx stEx with
  | Except.ok s => s
  | Except.error e => e.2

/-- A stop environment in which every unit terminates cooperatively. -/
def senvCoop : String → StopEnv :=
  fun _ => { terminateRaises := false, waitTime := 1, killRaises := false,
             killWaitTime := 0, closeRaises := false }

/-- An adversarial stop environment: terminating eth0 raises, eth1
ignores the graceful request and must be force-killed, and every other
unit also ignores the graceful request while its kill raises. -/
def senvHostile : String → StopEnv :=
  fun i =>
    if i = "eth0" then
      { terminateRaises := true, waitTime := 0, killRaises := false,
        killWaitTime := 0, closeRaises := true }
    else if i = "eth1" then
      { terminateRaises := false, waitTime := 10, killRaises := false,
        killWaitTime := 1, closeRaises := false }
    else
      { terminateRaises := false, waitTime := 10, killRaises := true,
        killWaitTime := 0, closeRaises := false }

/-- Interleaving-model exemplar: the system at the top of the loop with
all three units running. -/
def sys0 : SysState :=
  { sup := stEx, pc := PC.idle, sigPending := false, exitedWith := none, shutdowns := 0 }

/-- After the loop has detected the exit of eth0 and closed its stale
sink: a restart of eth0 is now in flight. -/
def sys1 : SysState :=
  { sys0 with pc := PC.closedOld "eth0",
              sup := closeStale sys0.sup "eth0" { pid := 0, sink := 0 } 1 }

/-- A termination signal is delivered while the restart is in flight. -/
def sys2 : SysState := { sys1 with sigPending := true }

/-- The interpreter runs handle_sig right there, inside the restart. -/
def sys3 : SysState := handle_sig senvCoop sys2

/-! Basic lemmas about the registry dictionary. -/

theorem lookupReg_cons (p : String × Entry) (rest : List (String × Entry)) (x : String) :
    lookupReg (p :: rest) x = if p.1 = x then some p.2 else lookupReg rest x := by
  obtain ⟨a, b⟩ := p
  rfl

theorem any_key_iff (d : List (String × Entry)) (k : String) :
    (d.any (fun p => p.1 = k)) = true ↔ k ∈ regKeys d := by
  simp [List.any_eq_true, regKeys, List.mem_map]

theorem lookupReg_map_update_self (d : List (String × Entry)) (k : String) (v : Entry)
    (h : k ∈ regKeys d) :
    lookupReg (d.map (fun p => if p.1 = k then (k, v) else p)) k = some v := by
  induction d with
  | nil => simp [regKeys] at h
  | cons p rest ih =>
    by_cases hp : p.1 = k
    · rw [List.map_cons, if_pos hp, lookupReg_cons]
      simp
    · rw [List.map_cons, if_neg hp, lookupReg_cons, if_neg hp]
      apply ih
      simp only [regKeys, List.map_cons, List.mem_cons] at h
      rcases h with h | h
      · exact absurd h.symm hp
      · exact h

theorem lookupReg_map_update_ne (d : List (String × Entry)) (k x : String) (v : Entry)
    (hne : x ≠ k) :
    lookupReg (d.map (fun p => if p.1 = k then (k, v) else p)) x = lookupReg d x := by
  induction d with
  | nil => rfl
  | cons p rest ih =>
    by_cases hp : p.1 = k
    · rw [List.map_cons, if_pos hp, lookupReg_cons, lookupReg_cons]
      have hpx : ¬ (p.1 = x) := by rw [hp]; exact fun hh => hne hh.symm
      rw [if_neg (show ¬ (((k, v) : String × Entry).1 = x) from fun hh => hne hh.symm),
          if_neg hpx]
      exact ih
    · rw [List.map_cons, if_neg hp, lookupReg_cons, lookupReg_cons]
      by_cases hpx : p.1 = x
      · rw [if_pos hpx, if_pos hpx]
      · rw [if_neg hpx, if_neg hpx]
        exact ih

theorem lookupReg_append_single_ne (d : List (String × Entry)) (k x : String) (v : Entry)
    (hne : x ≠ k) : lookupReg (d ++ [(k, v)]) x = lookupReg d x := by
  induction d with
  | nil =>
    simp only [List.nil_append, lookupReg_cons]
    rw [if_neg (show ¬ (((k, v) : String × Entry).1 = x) from fun hh => hne hh.symm)]
  | cons p rest ih =>
    rw [List.cons_append, lookupReg_cons, lookupReg_cons]
    by_cases hpx : p.1 = x
    · rw [if_pos hpx, if_pos hpx]
    · rw [if_neg hpx, if_neg hpx]
      exact ih

theorem lookupReg_append_single_self (d : List (String × Entry)) (k : String) (v : Entry)
    (h : k ∉ regKeys d) : lookupReg (d ++ [(k, v)]) k = some v := by
  induction d with
  | nil => simp [lookupReg_cons, lookupReg]
  | cons p rest ih =>
    simp only [regKeys, List.map_cons, List.mem_cons] at h
    push_neg at h
    rw [List.cons_append, lookupReg_cons, if_neg (fun hh => h.1 hh.symm)]
    exact ih h.2

theorem lookupReg_dictSet_self (d : List (String × Entry)) (k : String) (v : Entry) :
    lookupReg (dictSet d k v) k = some v := by
  unfold dictSet
  by_cases h : (d.any (fun p => p.1 = k)) = true
  · rw [if_pos h]
    exact lookupReg_map_update_self d k v ((any_key_iff d k).1 h)
  · rw [if_neg h]
    exact lookupReg_append_single_self d k v (fun hm => h ((any_key_iff d k).2 hm))

theorem lookupReg_dictSet_ne (d : List (String × Entry)) (k x : String) (v : Entry)
    (hne : x ≠ k) : lookupReg (dictSet d k v) x = lookupReg d x := by
  unfold dictSet
  by_cases h : (d.any (fun p => p.1 = k)) = true
  · rw [if_pos h]
    exact lookupReg_map_update_ne d k x v hne
  · rw [if_neg h]
    exact lookupReg_append_single_ne d k x v hne

theorem regKeys_map_update (d : List (String × Entry)) (k : String) (v : Entry) :
    regKeys (d.map (fun p => if p.1 = k then (k, v) else p)) = regKeys d := by
  induction d with
  | nil => rfl
  | cons p rest ih =>
    by_cases hp : p.1 = k
    · rw [List.map_cons, if_pos hp]
      simp only [regKeys, List.map_cons] at ih ⊢
      rw [ih, hp]
    · rw [List.map_cons, if_neg hp]
      simp only [regKeys, List.map_cons] at ih ⊢
      rw [ih]

theorem regKeys_dictSet_of_mem (d : List (String × Entry)) (k : String) (v : Entry)
    (h : k ∈ regKeys d) : regKeys (dictSet d k v) = regKeys d := by
  unfold dictSet
  rw [if_pos ((any_key_iff d k).2 h)]
  exact regKeys_map_update d k v

theorem regKeys_dictSet_of_not_mem (d : List (String × Entry)) (k : String) (v : Entry)
    (h : k ∉ regKeys d) : regKeys (dictSet d k v) = regKeys d ++ [k] := by
  unfold dictSet
  rw [if_neg (fun ha => h ((any_key_iff d k).1 ha))]
  simp [regKeys]

theorem lookupReg_of_mem_of_nodup (d : List (String × Entry)) (k : String) (e : Entry)
    (hnd : (regKeys d).Nodup) (hm : (k, e) ∈ d) : lookupReg d k = some e := by
  induction d with
  | nil => simp at hm
  | cons p rest ih =>
    simp only [regKeys, List.map_cons, List.nodup_cons] at hnd
    rcases List.mem_cons.1 hm with h | h
    · subst h
      simp [lookupReg_cons]
    · have hk : ¬ (p.1 = k) := by
        intro he
        exact hnd.1 (he ▸ (List.mem_map_of_mem Prod.fst h))
      rw [lookupReg_cons, if_neg hk]
      exact ih hnd.2 h

theorem mem_regKeys_of_lookupReg (d : List (String × Entry)) (k : String) (e : Entry)
    (h : lookupReg d k = some e) : k ∈ regKeys d := by
  induction d with
  | nil => simp [lookupReg] at h
  | cons p rest ih =>
    by_cases hp : p.1 = k
    · simp [regKeys, hp.symm]
    · rw [lookupReg_cons, if_neg hp] at h
      simp only [regKeys, List.map_cons, List.mem_cons]
      exact Or.inr (ih h)

/-! Closed forms and invariants of start_all. -/

theorem foldl_startOne_nextPid (cfg : Config) (l : List String) (st : SupState) :
    (l.foldl (startOne cfg) st).nextPid = st.nextPid + l.length := by
  induction l generalizing st with
  | nil => simp
  | cons i t ih =>
    rw [List.foldl_cons, ih]
    show (startOne cfg st i).nextPid + t.length = st.nextPid + (t.length + 1)
    simp [startOne]
    omega

theorem foldl_startOne_nextSink (cfg : Config) (l : List String) (st : SupState) :
    (l.foldl (startOne cfg) st).nextSink = st.nextSink + l.length := by
  induction l generalizing st with
  | nil => simp
  | cons i t ih =>
    rw [List.foldl_cons, ih]
    show (startOne cfg st i).nextSink + t.length = st.nextSink + (t.length + 1)
    simp [startOne]
    omega

theorem foldl_startOne_events (cfg : Config) (l : List String) (st : SupState) :
    (l.foldl (startOne cfg) st).events =
      st.events ++ startEvents cfg st.nextPid st.nextSink l := by
  induction l generalizing st with
  | nil => simp [startEvents]
  | cons i t ih =>
    rw [List.foldl_cons, ih]
    simp [startOne, startEvents]

theorem foldl_startOne_sinks (cfg : Config) (l : List String) (st : SupState) :
    (l.foldl (startOne cfg) st).sinks = st.sinks ++ startSinks cfg st.nextSink l := by
  induction l generalizing st with
  | nil => simp [startSinks]
  | cons i t ih =>
    rw [List.foldl_cons, ih]
    simp [startOne, startSinks]

theorem foldl_startOne_openSinks (cfg : Config) (l : List String) (st : SupState) :
    (l.foldl (startOne cfg) st).openSinks = st.openSinks ++ sidSeq st.nextSink l.length := by
  induction l generalizing st with
  | nil => simp [sidSeq]
  | cons i t ih =>
    rw [List.foldl_cons, ih]
    simp [startOne, sidSeq]

theorem regKeys_startOne (cfg : Config) (st : SupState) (i : String) :
    regKeys ((startOne cfg st i).registry) =
      if i ∈ regKeys st.registry then regKeys st.registry else regKeys st.registry ++ [i] := by
  show regKeys (dictSet st.registry i _) = _
  by_cases h : i ∈ regKeys st.registry
  · rw [if_pos h, regKeys_dictSet_of_mem _ _ _ h]
  · rw [if_neg h, regKeys_dictSet_of_not_mem _ _ _ h]

theorem foldl_startOne_keys_nodup (cfg : Config) (l : List String) (st : SupState)
    (h : (regKeys st.registry).Nodup) :
    (regKeys (l.foldl (startOne cfg) st).registry).Nodup := by
  induction l generalizing st with
  | nil => exact h
  | cons i t ih =>
    rw [List.foldl_cons]
    apply ih
    rw [regKeys_startOne]
    by_cases hm : i ∈ regKeys st.registry
    · rwa [if_pos hm]
    · rw [if_neg hm]
      rw [List.nodup_append]
      exact ⟨h, List.nodup_singleton i, fun a ha hai => hm ((List.mem_singleton.1 hai) ▸ ha)⟩

theorem foldl_startOne_keys_mem (cfg : Config) (l : List String) (st : SupState) (x : String) :
    x ∈ regKeys (l.foldl (startOne cfg) st).registry ↔ x ∈ regKeys st.registry ∨ x ∈ l := by
  induction l generalizing st with
  | nil => simp
  | cons i t ih =>
    rw [List.foldl_cons, ih, regKeys_startOne]
    by_cases hm : i ∈ regKeys st.registry
    · rw [if_pos hm]
      constructor
      · rintro (h | h)
        · exact Or.inl h
        · exact Or.inr (List.mem_cons_of_mem i h)
      · rintro (h | h)
        · exact Or.inl h
        · rcases List.mem_cons.1 h with h1 | h1
          · rw [h1]
            exact Or.inl hm
          · exact Or.inr h1
    · rw [if_neg hm]
      constructor
      · rintro (h | h)
        · rcases List.mem_append.1 h with h1 | h1
          · exact Or.inl h1
          · rw [List.mem_singleton.1 h1]
            exact Or.inr (List.mem_cons_self i t)
        · exact Or.inr (List.mem_cons_of_mem i h)
      · rintro (h | h)
        · exact Or.inl (List.mem_append.2 (Or.inl h))
        · rcases List.mem_cons.1 h with h1 | h1
          · refine Or.inl (List.mem_append.2 (Or.inr ?h))
            rw [h1]
            exact List.mem_singleton.2 rfl
          · exact Or.inr h1

theorem foldl_startOne_lookup (cfg : Config) (l : List String) (st : SupState) (x : String) :
    lookupReg (l.foldl (startOne cfg) st).registry x =
      if x ∈ l then
        some { pid := st.nextPid + lastOcc l x, sink := st.nextSink + lastOcc l x }
      else lookupReg st.registry x := by
  induction l generalizing st with
  | nil => simp
  | cons i t ih =>
    rw [List.foldl_cons, ih]
    have hreg : (startOne cfg st i).registry
        = dictSet st.registry i { pid := st.nextPid, sink := st.nextSink } := rfl
    have hp : (startOne cfg st i).nextPid = st.nextPid + 1 := rfl
    have hs : (startOne cfg st i).nextSink = st.nextSink + 1 := rfl
    by_cases hmt : x ∈ t
    · rw [if_pos hmt, if_pos (List.mem_cons_of_mem i hmt), hp, hs]
      simp only [lastOcc, if_pos hmt, Option.some.injEq, Entry.mk.injEq]
      omega
    · rw [if_neg hmt, hreg]
      by_cases hxi : x = i
      · subst hxi
        rw [if_pos (List.mem_cons_self x t), lookupReg_dictSet_self]
        simp only [lastOcc, if_neg hmt, Option.some.injEq, Entry.mk.injEq]
        omega
      · rw [if_neg (fun hh => (List.mem_cons.1 hh).elim hxi hmt),
            lookupReg_dictSet_ne _ _ _ _ hxi]

/-! Counting lemmas for the event trace. -/

theorem spawnCount_append (a b : List Event) :
    spawnCount (a ++ b) = spawnCount a + spawnCount b := by
  simp [spawnCount, List.filter_append]

theorem openCount_append (a b : List Event) :
    openCount (a ++ b) = openCount a + openCount b := by
  simp [openCount, List.filter_append]

theorem backoffCount_append (a b : List Event) :
    backoffCount (a ++ b) = backoffCount a + backoffCount b := by
  simp [backoffCount, List.filter_append]

theorem closeCountFor_append (a b : List Event) (sid : Nat) :
    closeCountFor (a ++ b) sid = closeCountFor a sid + closeCountFor b sid := by
  simp [closeCountFor, List.filter_append]

theorem spawnCount_startEvents (cfg : Config) (p s : Nat) (l : List String) :
    spawnCount (startEvents cfg p s l) = l.length := by
  induction l generalizing p s with
  | nil => rfl
  | cons i t ih =>
    show spawnCount (_ ++ startEvents cfg (p + 1) (s + 1) t) = t.length + 1
    rw [spawnCount_append, ih]
    have hb : spawnCount
        [Event.openSink s (stderrPath cfg i) true,
         Event.spawn p (build_cmd cfg i cfg.outputDir) true s,
         Event.log ("Started tcpdump for " ++ i)] = 1 := rfl
    omega

theorem openCount_startEvents (cfg : Config) (p s : Nat) (l : List String) :
    openCount (startEvents cfg p s l) = l.length := by
  induction l generalizing p s with
  | nil => rfl
  | cons i t ih =>
    show openCount (_ ++ startEvents cfg (p + 1) (s + 1) t) = t.length + 1
    rw [openCount_append, ih]
    have hb : openCount
        [Event.openSink s (stderrPath cfg i) true,
         Event.spawn p (build_cmd cfg i cfg.outputDir) true s,
         Event.log ("Started tcpdump for " ++ i)] = 1 := rfl
    omega

theorem mem_sidSeq (m k n : Nat) : m ∈ sidSeq k n ↔ k ≤ m ∧ m < k + n := by
  induction n generalizing k with
  | zero =>
    simp only [sidSeq, List.not_mem_nil, false_iff]
    omega
  | succ n ih =>
    simp only [sidSeq, List.mem_cons, ih]
    omega

theorem filter_startSinks_length (cfg : Config) (x : String) (l : List String) :
    ∀ s n : Nat, s + l.length ≤ n →
    ((startSinks cfg s l).filter (fun r => r.unit = x ∧ r.sid ∈ sidSeq 0 n)).length
      = l.count x := by
  induction l with
  | nil => intro s n _; rfl
  | cons i t ih =>
    intro s n hn
    have hsid : s ∈ sidSeq 0 n := by
      rw [mem_sidSeq]
      simp only [List.length_cons] at hn
      omega
    show (List.filter _ ({ sid := s, unit := i, path := _, append := true } :: startSinks cfg (s + 1) t)).length = _
    rw [List.filter_cons]
    by_cases hix : i = x
    · have hcond : (decide ((({ sid := s, unit := i, path := stderrPath cfg i, append := true } : SinkRec).unit = x
          ∧ ({ sid := s, unit := i, path := stderrPath cfg i, append := true } : SinkRec).sid ∈ sidSeq 0 n))) = true := by
        simp [hix, hsid]
      rw [if_pos hcond, List.length_cons, ih (s + 1) n (by simp only [List.length_cons] at hn; omega)]
      simp [List.count_cons, hix]
    · have hcond : (decide ((({ sid := s, unit := i, path := stderrPath cfg i, append := true } : SinkRec).unit = x
          ∧ ({ sid := s, unit := i, path := stderrPath cfg i, append := true } : SinkRec).sid ∈ sidSeq 0 n))) = false := by
        simp [hix]
      rw [if_neg (by simp [hcond])]
      rw [ih (s + 1) n (by simp only [List.length_cons] at hn; omega)]
      simp [List.count_cons, hix]

theorem countOpenSinksFor_start_all (cfg : Config) (x : String) :
    countOpenSinksFor (start_all cfg initState) x = cfg.interfaces.count x := by
  unfold countOpenSinksFor start_all
  rw [foldl_startOne_sinks, foldl_startOne_openSinks]
  show ((startSinks cfg 0 cfg.interfaces).filter _).length = _
  exact filter_startSinks_length cfg x cfg.interfaces 0 cfg.interfaces.length (by omega)

/-! Facts about lastOcc. -/

theorem lastOcc_lt_length (l : List String) (x : String) (h : x ∈ l) :
    lastOcc l x < l.length := by
  induction l with
  | nil => simp at h
  | cons i t ih =>
    show (if x ∈ t then lastOcc t x + 1 else 0) < t.length + 1
    by_cases hmt : x ∈ t
    · rw [if_pos hmt]
      exact Nat.succ_lt_succ (ih hmt)
    · rw [if_neg hmt]
      omega

theorem get_lastOcc (l : List String) (x : String) (h : x ∈ l)
    (hlt : lastOcc l x < l.length) : l.get ⟨lastOcc l x, hlt⟩ = x := by
  induction l with
  | nil => simp at h
  | cons i t ih =>
    by_cases hmt : x ∈ t
    · have he : lastOcc (i :: t) x = lastOcc t x + 1 := by
        show (if x ∈ t then lastOcc t x + 1 else 0) = _
        rw [if_pos hmt]
      have hlt2 : lastOcc t x < t.length := lastOcc_lt_length t x hmt
      have hfin : (⟨lastOcc (i :: t) x, hlt⟩ : Fin (i :: t).length)
          = ⟨lastOcc t x + 1, Nat.succ_lt_succ hlt2⟩ := by
        apply Fin.ext
        simp [he]
      rw [hfin, List.get_cons_succ]
      exact ih hmt hlt2
    · have he : lastOcc (i :: t) x = 0 := by
        show (if x ∈ t then lastOcc t x + 1 else 0) = _
        rw [if_neg hmt]
      rcases List.mem_cons.1 h with h1 | h1
      · subst h1
        simp [he]
      · exact absurd h1 hmt

/-! Lemmas about the monitoring loop. -/

theorem monitorUnit_poll_none (cfg : Config) (env : String → UnitEnv) (st : SupState)
    (u : String × Entry) (hpoll : (env u.1).poll = none) :
    monitorUnit cfg env st u = Except.ok st := by
  simp [monitorUnit, hpoll]

theorem monitorUnit_restart (cfg : Config) (env : String → UnitEnv) (st : SupState)
    (u : String × Entry) (ret : Int)
    (hpoll : (env u.1).poll = some ret)
    (hopen : (env u.1).openOk = true)
    (hspawn : (env u.1).spawnOk = true) :
    monitorUnit cfg env st u = Except.ok
      { registry := dictSet st.registry u.1 { pid := st.nextPid, sink := st.nextSink },
        openSinks := (st.openSinks.erase u.2.sink) ++ [st.nextSink],
        sinks := st.sinks ++
          [{ sid := st.nextSink, unit := u.1, path := stderrPath cfg u.1, append := true }],
        nextPid := st.nextPid + 1,
        nextSink := st.nextSink + 1,
        events := st.events ++
          [Event.log ("tcpdump for " ++ u.1 ++ " exited with code " ++ toString ret ++ "; restarting in 2s..."),
           Event.closeSink u.2.sink,
           Event.sleep 2,
           Event.openSink st.nextSink (stderrPath cfg u.1) true,
           Event.spawn st.nextPid (build_cmd cfg u.1 cfg.outputDir) true st.nextSink,
           Event.log ("Restarted tcpdump for " ++ u.1)] } := by
  simp [monitorUnit, hpoll, hopen, hspawn]

theorem monitorUnit_openFail (cfg : Config) (env : String → UnitEnv) (st : SupState)
    (u : String × Entry) (ret : Int)
    (hpoll : (env u.1).poll = some ret)
    (hopen : (env u.1).openOk = false) :
    monitorUnit cfg env st u = Except.error (Crash.openFailed u.1,
      { st with
        openSinks := st.openSinks.erase u.2.sink,
        events := st.events ++
          [Event.log ("tcpdump for " ++ u.1 ++ " exited with code " ++ toString ret ++ "; restarting in 2s..."),
           Event.closeSink u.2.sink,
           Event.sleep 2] }) := by
  simp [monitorUnit, hpoll, hopen]

theorem monitorUnit_spawnFail (cfg : Config) (env : String → UnitEnv) (st : SupState)
    (u : String × Entry) (ret : Int)
    (hpoll : (env u.1).poll = some ret)
    (hopen : (env u.1).openOk = true)
    (hspawn : (env u.1).spawnOk = false) :
    monitorUnit cfg env st u = Except.error (Crash.spawnFailed u.1,
      { st with
        openSinks := (st.openSinks.erase u.2.sink) ++ [st.nextSink],
        sinks := st.sinks ++
          [{ sid := st.nextSink, unit := u.1, path := stderrPath cfg u.1, append := true }],
        nextSink := st.nextSink + 1,
        events := st.events ++
          [Event.log ("tcpdump for " ++ u.1 ++ " exited with code " ++ toString ret ++ "; restarting in 2s..."),
           Event.closeSink u.2.sink,
           Event.sleep 2,
           Event.openSink st.nextSink (stderrPath cfg u.1) true] }) := by
  simp [monitorUnit, hpoll, hopen, hspawn]

theorem monitorUnit_ok_keys (cfg : Config) (env : String → UnitEnv) (st st1 : SupState)
    (u : String × Entry) (h : monitorUnit cfg env st u = Except.ok st1)
    (hm : u.1 ∈ regKeys st.registry) :
    regKeys st1.registry = regKeys st.registry := by
  cases hpoll : (env u.1).poll with
  | none =>
    rw [monitorUnit_poll_none cfg env st u hpoll] at h
    cases h
    rfl
  | some ret =>
    cases hopen : (env u.1).openOk with
    | false =>
      rw [monitorUnit_openFail cfg env st u ret hpoll hopen] at h
      cases h
    | true =>
      cases hspawn : (env u.1).spawnOk with
      | false =>
        rw [monitorUnit_spawnFail cfg env st u ret hpoll hopen hspawn] at h
        cases h
      | true =>
        rw [monitorUnit_restart cfg env st u ret hpoll hopen hspawn] at h
        cases h
        exact regKeys_dictSet_of_mem _ _ _ hm

theorem monitorGo_cons (cfg : Config) (env : String → UnitEnv) (u : String × Entry)
    (rest : List (String × Entry)) (st : SupState) :
    monitorGo cfg env (u :: rest) st =
      match monitorUnit cfg env st u with
      | Except.ok st1 => monitorGo cfg env rest st1
      | Except.error e => Except.error e := rfl

theorem monitorGo_ok_keys (cfg : Config) (env : String → UnitEnv) :
    ∀ (L : List (String × Entry)) (st st2 : SupState),
    (∀ u ∈ L, u.1 ∈ regKeys st.registry) →
    monitorGo cfg env L st = Except.ok st2 →
    regKeys st2.registry = regKeys st.registry := by
  intro L
  induction L with
  | nil =>
    intro st st2 _ h
    cases h
    rfl
  | cons u rest ih =>
    intro st st2 hmem h
    rw [monitorGo_cons] at h
    cases hu : monitorUnit cfg env st u with
    | error e => rw [hu] at h; cases h
    | ok st1 =>
      rw [hu] at h
      have hk1 : regKeys st1.registry = regKeys st.registry :=
        monitorUnit_ok_keys cfg env st st1 u hu (hmem u (List.mem_cons_self u rest))
      have hk2 : regKeys st2.registry = regKeys st1.registry :=
        ih st1 st2 (fun v hv => hk1 ▸ hmem v (List.mem_cons_of_mem u hv)) h
      rw [hk2, hk1]

theorem monitorPass_ok_keys (cfg : Config) (env : String → UnitEnv) (st st2 : SupState)
    (h : monitorPass cfg env st = Except.ok st2) :
    regKeys st2.registry = regKeys st.registry :=
  monitorGo_ok_keys cfg env st.registry st st2
    (fun _ hu => List.mem_map_of_mem Prod.fst hu) h

theorem detectedCount_cons (env : String → UnitEnv) (u : String × Entry)
    (rest : List (String × Entry)) :
    detectedCount env (u :: rest) =
      (if ((env u.1).poll).isSome then 1 else 0) + detectedCount env rest := by
  simp only [detectedCount, List.filter_cons]
  by_cases h : ((env u.1).poll).isSome
  · rw [if_pos (by simpa using h), if_pos h, List.length_cons]
    omega
  · rw [if_neg (by simpa using h), if_neg h]
    omega

theorem monitorGo_total (cfg : Config) (env : String → UnitEnv) :
    ∀ (L : List (String × Entry)) (st : SupState),
    (∀ u ∈ L, (env u.1).openOk = true ∧ (env u.1).spawnOk = true) →
    ∃ st2, monitorGo cfg env L st = Except.ok st2 ∧
      spawnCount st2.events = spawnCount st.events + detectedCount env L ∧
      backoffCount st2.events = backoffCount st.events + detectedCount env L := by
  intro L
  induction L with
  | nil =>
    intro st _
    exact ⟨st, rfl, by simp [detectedCount], by simp [detectedCount]⟩
  | cons u rest ih =>
    intro st henv
    have hu := henv u (List.mem_cons_self u rest)
    cases hpoll : (env u.1).poll with
    | none =>
      obtain ⟨st2, h1, h2, h3⟩ := ih st (fun v hv => henv v (List.mem_cons_of_mem u hv))
      refine ⟨st2, ?g1, ?g2, ?g3⟩
      · rw [monitorGo_cons, monitorUnit_poll_none cfg env st u hpoll]
        exact h1
      · rw [h2, detectedCount_cons, hpoll]
        simp
      · rw [h3, detectedCount_cons, hpoll]
        simp
    | some ret =>
      obtain ⟨st2, h1, h2, h3⟩ :=
        ih _ (fun v hv => henv v (List.mem_cons_of_mem u hv))
      refine ⟨st2, ?k1, ?k2, ?k3⟩
      · rw [monitorGo_cons, monitorUnit_restart cfg env st u ret hpoll hu.1 hu.2]
        exact h1
      · rw [h2, detectedCount_cons, hpoll]
        rw [spawnCount_append]
        have hb : spawnCount
            [Event.log ("tcpdump for " ++ u.1 ++ " exited with code " ++ toString ret ++ "; restarting in 2s..."),
             Event.closeSink u.2.sink,
             Event.sleep 2,
             Event.openSink st.nextSink (stderrPath cfg u.1) true,
             Event.spawn st.nextPid (build_cmd cfg u.1 cfg.outputDir) true st.nextSink,
             Event.log ("Restarted tcpdump for " ++ u.1)] = 1 := rfl
        rw [hb]
        simp only [Option.isSome_some, if_pos]
        omega
      · rw [h3, detectedCount_cons, hpoll]
        rw [backoffCount_append]
        have hb : backoffCount
            [Event.log ("tcpdump for " ++ u.1 ++ " exited with code " ++ toString ret ++ "; restarting in 2s..."),
             Event.closeSink u.2.sink,
             Event.sleep 2,
             Event.openSink st.nextSink (stderrPath cfg u.1) true,
             Event.spawn st.nextPid (build_cmd cfg u.1 cfg.outputDir) true st.nextSink,
             Event.log ("Restarted tcpdump for " ++ u.1)] = 1 := rfl
        rw [hb]
        simp only [Option.isSome_some, if_pos]
        omega

/-! Lemmas about stop_all. -/

theorem stop_all_fold (senv : String → StopEnv) :
    ∀ (L : List (String × Entry)) (st : SupState) (t0 : Nat),
    (L.foldl (fun (acc : SupState × Nat) u =>
        let r := stopOne senv acc.1 u
        (r.1, acc.2 + r.2)) (st, t0)).1.events
        = st.events ++ (L.map (stopBlock senv)).flatten ∧
    (L.foldl (fun (acc : SupState × Nat) u =>
        let r := stopOne senv acc.1 u
        (r.1, acc.2 + r.2)) (st, t0)).2
        = t0 + (L.map (stopTime senv)).sum ∧
    (L.foldl (fun (acc : SupState × Nat) u =>
        let r := stopOne senv acc.1 u
        (r.1, acc.2 + r.2)) (st, t0)).1.registry = st.registry := by
  intro L
  induction L with
  | nil =>
    intro st t0
    refine ⟨by simp, by simp, rfl⟩
  | cons u rest ih =>
    intro st t0
    obtain ⟨h1, h2, h3⟩ := ih (stopOne senv st u).1 (t0 + (stopOne senv st u).2)
    refine ⟨?e1, ?e2, ?e3⟩
    · rw [List.foldl_cons]
      rw [h1]
      show ({ st with
          openSinks := st.openSinks.erase u.2.sink,
          events := st.events ++ stopBlock senv u } : SupState).events
          ++ (rest.map (stopBlock senv)).flatten = _
      simp [List.append_assoc]
    · rw [List.foldl_cons, h2]
      show t0 + stopTime senv u + (rest.map (stopTime senv)).sum = _
      simp [List.sum_cons]
      omega
    · rw [List.foldl_cons, h3]
      rfl

theorem stop_all_registry (senv : String → StopEnv) (st : SupState) :
    (stop_all senv st).1.registry = [] := rfl

theorem stop_all_events (senv : String → StopEnv) (st : SupState) :
    (stop_all senv st).1.events = st.events ++ (st.registry.map (stopBlock senv)).flatten :=
  (stop_all_fold senv st.registry st 0).1

theorem stop_all_time (senv : String → StopEnv) (st : SupState) :
    (stop_all senv st).2 = (st.registry.map (stopTime senv)).sum := by
  have h := (stop_all_fold senv st.registry st 0).2.1
  show (st.registry.foldl _ (st, 0)).2 = _
  rw [h]
  omega

theorem stopTime_le (senv : String → StopEnv) (u : String × Entry) :
    stopTime senv u ≤ 10 := by
  unfold stopTime stopCore
  split_ifs with h1 h2 h3 h4 <;> simp <;> omega

theorem mem_stopBlock_log (senv : String → StopEnv) (u : String × Entry) :
    Event.log ("Stopping tcpdump for " ++ u.1) ∈ stopBlock senv u := by
  unfold stopBlock
  exact List.mem_append.2 (Or.inl (List.mem_append.2 (Or.inl (List.mem_singleton.2 rfl))))

theorem mem_stopBlock_close (senv : String → StopEnv) (u : String × Entry) :
    Event.closeSink u.2.sink ∈ stopBlock senv u := by
  unfold stopBlock
  exact List.mem_append.2 (Or.inr (List.mem_singleton.2 rfl))

theorem mem_stopBlock_errorLog (senv : String → StopEnv) (u : String × Entry)
    (h : (senv u.1).terminateRaises = true) :
    Event.log ("Error stopping " ++ u.1) ∈ stopBlock senv u := by
  unfold stopBlock stopCore
  rw [h]
  simp

theorem closeCountFor_stopBlock (senv : String → StopEnv) (u : String × Entry) (sid : Nat) :
    closeCountFor (stopBlock senv u) sid = if u.2.sink = sid then 1 else 0 := by
  unfold stopBlock
  rw [closeCountFor_append, closeCountFor_append]
  have h1 : closeCountFor [Event.log ("Stopping tcpdump for " ++ u.1)] sid = 0 := rfl
  have h2 : closeCountFor (stopCore (senv u.1) u.1 u.2.pid).1 sid = 0 := by
    unfold stopCore
    split_ifs <;> rfl
  rw [h1, h2]
  by_cases hs : u.2.sink = sid
  · rw [if_pos hs]
    simp [closeCountFor, hs]
  · rw [if_neg hs]
    simp [closeCountFor, hs]

theorem closeCountFor_flatten_stopBlocks (senv : String → StopEnv) (sid : Nat) :
    ∀ L : List (String × Entry),
    closeCountFor ((L.map (stopBlock senv)).flatten) sid
      = (L.filter (fun v => v.2.sink = sid)).length := by
  intro L
  induction L with
  | nil => rfl
  | cons u rest ih =>
    rw [List.map_cons, List.flatten_cons, closeCountFor_append, ih,
        closeCountFor_stopBlock, List.filter_cons]
    by_cases hs : u.2.sink = sid
    · rw [if_pos hs, if_pos (by simpa using hs), List.length_cons]
      omega
    · rw [if_neg hs, if_neg (by simpa using hs)]
      omega

theorem length_filter_sink_eq_count (L : List (String × Entry)) (c : Nat) :
    (L.filter (fun v => v.2.sink = c)).length = (L.map (fun v => v.2.sink)).count c := by
  induction L with
  | nil => rfl
  | cons u rest ih =>
    rw [List.filter_cons, List.map_cons, List.count_cons]
    by_cases hs : u.2.sink = c
    · rw [if_pos (by simpa using hs), List.length_cons, ih]
      simp [hs]
    · rw [if_neg (by simpa using hs), ih]
      simp [hs]

theorem stop_all_kill_event (senv : String → StopEnv) (u : String × Entry)
    (h1 : (senv u.1).terminateRaises = false)
    (h2 : 5 < (senv u.1).waitTime)
    (h3 : (senv u.1).killRaises = false) :
    Event.kill u.2.pid ∈ stopBlock senv u := by
  unfold stopBlock stopCore
  rw [h1, h3]
  simp only [Bool.false_eq_true, if_false, if_neg (by omega : ¬ ((senv u.1).waitTime ≤ 5))]
  by_cases h4 : (senv u.1).killWaitTime ≤ 5 <;> simp [h4]

/-! Specialisations of the start_all closed forms to the initial state. -/

theorem start_all_keys_nodup (cfg : Config) :
    (regKeys (start_all cfg initState).registry).Nodup :=
  foldl_startOne_keys_nodup cfg cfg.interfaces initState List.nodup_nil

theorem start_all_keys_mem (cfg : Config) (x : String) :
    x ∈ regKeys (start_all cfg initState).registry ↔ x ∈ cfg.interfaces := by
  rw [show start_all cfg initState = cfg.interfaces.foldl (startOne cfg) initState from rfl,
      foldl_startOne_keys_mem]
  simp [initState, regKeys]

theorem start_all_lookup (cfg : Config) (x : String) (h : x ∈ cfg.interfaces) :
    lookupReg (start_all cfg initState).registry x
      = some { pid := lastOcc cfg.interfaces x, sink := lastOcc cfg.interfaces x } := by
  have hl := foldl_startOne_lookup cfg cfg.interfaces initState x
  rw [if_pos h] at hl
  simpa [start_all, initState] using hl

theorem start_all_registry_length_lt (cfg : Config) (h : ¬ cfg.interfaces.Nodup) :
    (start_all cfg initState).registry.length < cfg.interfaces.length := by
  have hlen : (regKeys (start_all cfg initState).registry).length
      = (start_all cfg initState).registry.length := List.length_map _ _
  have hknd := start_all_keys_nodup cfg
  have hsub : regKeys (start_all cfg initState).registry ⊆ cfg.interfaces.dedup :=
    fun x hx => List.mem_dedup.2 ((start_all_keys_mem cfg x).1 hx)
  have hsp := hknd.subperm hsub
  have h1 : (regKeys (start_all cfg initState).registry).length ≤ cfg.interfaces.dedup.length :=
    hsp.length_le
  have hddsub := List.dedup_sublist cfg.interfaces
  have h2 : cfg.interfaces.dedup.length ≤ cfg.interfaces.length := hddsub.length_le
  have h3 : cfg.interfaces.dedup.length ≠ cfg.interfaces.length := by
    intro he
    have hnd := List.nodup_dedup cfg.interfaces
    rw [hddsub.eq_of_length he] at hnd
    exact h hnd
  omega

theorem startEvents_mem (cfg : Config) (x : String) :
    ∀ (l : List String) (p s : Nat), x ∈ l →
      Event.openSink (s + lastOcc l x) (stderrPath cfg x) true ∈ startEvents cfg p s l ∧
      Event.spawn (p + lastOcc l x) (build_cmd cfg x cfg.outputDir) true (s + lastOcc l x)
        ∈ startEvents cfg p s l := by
  intro l
  induction l with
  | nil => intro p s h; simp at h
  | cons i t ih =>
    intro p s h
    by_cases hmt : x ∈ t
    · have he : lastOcc (i :: t) x = lastOcc t x + 1 := by
        show (if x ∈ t then lastOcc t x + 1 else 0) = _
        rw [if_pos hmt]
      obtain ⟨h1, h2⟩ := ih (p + 1) (s + 1) hmt
      constructor
      · show _ ∈ _ ++ startEvents cfg (p + 1) (s + 1) t
        apply List.mem_append.2
        right
        rw [he, show s + (lastOcc t x + 1) = (s + 1) + lastOcc t x from by omega]
        exact h1
      · show _ ∈ _ ++ startEvents cfg (p + 1) (s + 1) t
        apply List.mem_append.2
        right
        rw [he, show s + (lastOcc t x + 1) = (s + 1) + lastOcc t x from by omega,
            show p + (lastOcc t x + 1) = (p + 1) + lastOcc t x from by omega]
        exact h2
    · have hxi : x = i := (List.mem_cons.1 h).elim id (fun hh => absurd hh hmt)
      have he : lastOcc (i :: t) x = 0 := by
        show (if x ∈ t then lastOcc t x + 1 else 0) = _
        rw [if_neg hmt]
      subst hxi
      rw [he]
      constructor
      · show _ ∈ _ ++ startEvents cfg (p + 1) (s + 1) t
        apply List.mem_append.2
        left
        simp
      · show _ ∈ _ ++ startEvents cfg (p + 1) (s + 1) t
        apply List.mem_append.2
        left
        simp

/-! The claims. -/

/-- C1: for every unit whose child is detected as terminated during a
monitoring pass while the supervisor is running, the loop logs the exit
code, closes the stale diagnostic sink, waits the fixed backoff of
exactly 2 time units, rebuilds the command, opens a new append-mode
diagnostic sink, spawns a replacement (stdout discarded, stderr to the
new sink) and overwrites the registry entry for that unit name with the
new handle; the pass itself returns normally, so the supervisor does
not terminate, and across a whole pass every detected exit receives
exactly one such fixed backoff and one respawn, with no retry cap or
escalation, whatever restarts the state already records. -/
theorem monitor_restart_policy_spec :
    (∀ (cfg : Config) (env : String → UnitEnv) (st : SupState) (u : String × Entry) (ret : Int),
      (env u.1).poll = some ret →
      (env u.1).openOk = true →
      (env u.1).spawnOk = true →
      ∃ st1, monitorUnit cfg env st u = Except.ok st1 ∧
        st1.events = st.events ++
          [Event.log ("tcpdump for " ++ u.1 ++ " exited with code " ++ toString ret ++ "; restarting in 2s..."),
           Event.closeSink u.2.sink,
           Event.sleep 2,
           Event.openSink st.nextSink (stderrPath cfg u.1) true,
           Event.spawn st.nextPid (build_cmd cfg u.1 cfg.outputDir) true st.nextSink,
           Event.log ("Restarted tcpdump for " ++ u.1)] ∧
        st1.registry = dictSet st.registry u.1 { pid := st.nextPid, sink := st.nextSink } ∧
        lookupReg st1.registry u.1 = some { pid := st.nextPid, sink := st.nextSink } ∧
        st1.sinks = st.sinks ++
          [{ sid := st.nextSink, unit := u.1, path := stderrPath cfg u.1, append := true }]) ∧
    (∀ (cfg : Config) (env : String → UnitEnv) (st : SupState),
      (∀ u ∈ st.registry, (env u.1).openOk = true ∧ (env u.1).spawnOk = true) →
      ∃ st2, monitorPass cfg env st = Except.ok st2 ∧
        spawnCount st2.events = spawnCount st.events + detectedCount env st.registry ∧
        backoffCount st2.events = backoffCount st.events + detectedCount env st.registry) := by
  constructor
  · intro cfg env st u ret hpoll hopen hspawn
    refine ⟨_, monitorUnit_restart cfg env st u ret hpoll hopen hspawn, rfl, rfl, ?hl, rfl⟩
    exact lookupReg_dictSet_self _ _ _
  · intro cfg env st henv
    exact monitorGo_total cfg env st.registry st henv

/-- Witness for C1 on the exemplar: the pass over the three running
units, all of which have exited with code 1, restarts each of them. -/
theorem monitor_restart_policy_witness :
    ((envRestartEx "eth0").poll = some 1 ∧
     ∃ st1, monitorUnit cfgEx envRestartEx stEx ("eth0", { pid := 0, sink := 0 }) = Except.ok st1 ∧
       lookupReg st1.registry "eth0" = some { pid := stEx.nextPid, sink := stEx.nextSink }) ∧
    (∃ st2, monitorPass cfgEx envRestartEx stEx = Except.ok st2 ∧
       spawnCount st2.events = spawnCount stEx.events + detectedCount envRestartEx stEx.registry) := by
  constructor
  · refine ⟨rfl, ?w⟩
    obtain ⟨st1, h1, h2, h3, h4, h5⟩ :=
      monitor_restart_policy_spec.1 cfgEx envRestartEx stEx
        ("eth0", { pid := 0, sink := 0 }) 1 rfl rfl rfl
    exact ⟨st1, h1, h4⟩
  · obtain ⟨st2, h1, h2, h3⟩ :=
      monitor_restart_policy_spec.2 cfgEx envRestartEx stEx (fun u hu => ⟨rfl, rfl⟩)
    exact ⟨st2, h1, h2⟩

/-- C2 counterexample: when the configured interface list names eth0
twice, start_all leaves two open diagnostic sinks for the unit eth0, so
the claim that exactly one open diagnostic sink exists per unit fails
on this configuration. -/
theorem start_all_duplicate_sinks_cex :
    "eth0" ∈ cfgDup.interfaces ∧
    countOpenSinksFor (start_all cfgDup initState) "eth0" = 2 ∧
    ¬ (∀ x ∈ cfgDup.interfaces, countOpenSinksFor (start_all cfgDup initState) x = 1) := by
  refine ⟨by decide, rfl, fun hall => ?c⟩
  have h1 := hall "eth0" (by decide)
  have h2 : countOpenSinksFor (start_all cfgDup initState) "eth0" = 2 := rfl
  omega

/-- C2 (amended with the proviso that the configured interface names
are distinct): after start_all, every configured interface is mapped by
the registry to the handle spawned for it at its configuration
position; the spawn discarded stdout and sent stderr to the sink that
was opened fresh in append mode at the stderr path of the unit; the
sink is open; and exactly one open diagnostic sink exists per unit. -/
theorem start_all_units_running_spec (cfg : Config) (hnd : cfg.interfaces.Nodup) :
    ∀ x ∈ cfg.interfaces,
      lookupReg (start_all cfg initState).registry x
        = some { pid := lastOcc cfg.interfaces x, sink := lastOcc cfg.interfaces x } ∧
      Event.openSink (lastOcc cfg.interfaces x) (stderrPath cfg x) true
        ∈ (start_all cfg initState).events ∧
      Event.spawn (lastOcc cfg.interfaces x) (build_cmd cfg x cfg.outputDir) true
        (lastOcc cfg.interfaces x) ∈ (start_all cfg initState).events ∧
      lastOcc cfg.interfaces x ∈ (start_all cfg initState).openSinks ∧
      countOpenSinksFor (start_all cfg initState) x = 1 := by
  intro x hx
  refine ⟨start_all_lookup cfg x hx, ?e1, ?e2, ?e3, ?e4⟩
  · rw [show start_all cfg initState = cfg.interfaces.foldl (startOne cfg) initState from rfl,
        foldl_startOne_events]
    have h := (startEvents_mem cfg x cfg.interfaces initState.nextPid initState.nextSink hx).1
    simpa [initState] using h
  · rw [show start_all cfg initState = cfg.interfaces.foldl (startOne cfg) initState from rfl,
        foldl_startOne_events]
    have h := (startEvents_mem cfg x cfg.interfaces initState.nextPid initState.nextSink hx).2
    simpa [initState] using h
  · rw [show start_all cfg initState = cfg.interfaces.foldl (startOne cfg) initState from rfl,
        foldl_startOne_openSinks]
    have hlt := lastOcc_lt_length cfg.interfaces x hx
    have hm : lastOcc cfg.interfaces x ∈ sidSeq initState.nextSink cfg.interfaces.length := by
      rw [mem_sidSeq]
      show initState.nextSink ≤ _ ∧ _ < initState.nextSink + _
      constructor
      · exact Nat.zero_le _
      · show lastOcc cfg.interfaces x < 0 + cfg.interfaces.length
        omega
    simpa [initState] using hm
  · rw [countOpenSinksFor_start_all]
    exact List.count_eq_one_of_mem hnd hx

/-- Witness for C2 on the distinct three-interface configuration. -/
theorem start_all_units_running_witness :
    cfgEx.interfaces.Nodup ∧
    lookupReg stEx.registry "eth1" = some { pid := 1, sink := 1 } ∧
    countOpenSinksFor stEx "eth1" = 1 := by
  have h := start_all_units_running_spec cfgEx (by decide) "eth1" (by decide)
  exact ⟨by decide, h.1, h.2.2.2.2⟩

/-- C3: stop_all is best-effort and not all-or-nothing: it attempts
every unit of the registry in iteration order (the stopping status line
and the sink close happen for every unit, whatever the termination
behaviour of that or any other unit), an error in a unit's termination
sequence is caught and logged, the diagnostic sink is closed with close
errors suppressed, and the registry is empty when stop_all returns. -/
theorem stop_all_best_effort_spec (senv : String → StopEnv) (st : SupState) :
    (stop_all senv st).1.registry = [] ∧
    ∀ u ∈ st.registry,
      Event.log ("Stopping tcpdump for " ++ u.1) ∈ (stop_all senv st).1.events ∧
      Event.closeSink u.2.sink ∈ (stop_all senv st).1.events ∧
      ((senv u.1).terminateRaises = true →
        Event.log ("Error stopping " ++ u.1) ∈ (stop_all senv st).1.events) := by
  refine ⟨stop_all_registry senv st, fun u hu => ⟨?m1, ?m2, fun ht => ?m3⟩⟩
  · rw [stop_all_events]
    exact List.mem_append.2 (Or.inr (List.mem_flatten.2
      ⟨stopBlock senv u, List.mem_map_of_mem _ hu, mem_stopBlock_log senv u⟩))
  · rw [stop_all_events]
    exact List.mem_append.2 (Or.inr (List.mem_flatten.2
      ⟨stopBlock senv u, List.mem_map_of_mem _ hu, mem_stopBlock_close senv u⟩))
  · rw [stop_all_events]
    exact List.mem_append.2 (Or.inr (List.mem_flatten.2
      ⟨stopBlock senv u, List.mem_map_of_mem _ hu, mem_stopBlock_errorLog senv u ht⟩))

/-- Witness for C3: stopping the exemplar fleet under the adversarial
environment in which terminating eth0 raises. -/
theorem stop_all_best_effort_witness :
    (stop_all senvHostile stEx).1.registry = [] ∧
    Event.log ("Stopping tcpdump for " ++ "eth0") ∈ (stop_all senvHostile stEx).1.events ∧
    Event.closeSink 0 ∈ (stop_all senvHostile stEx).1.events ∧
    Event.log ("Error stopping " ++ "eth0") ∈ (stop_all senvHostile stEx).1.events := by
  obtain ⟨h1, h2⟩ := stop_all_best_effort_spec senvHostile stEx
  obtain ⟨ha, hb, hc⟩ := h2 ("eth0", { pid := 0, sink := 0 }) (by decide)
  exact ⟨h1, ha, hb, hc rfl⟩

/-- C4: stop_all always terminates, spending at most
termination-timeout plus kill-timeout (5 + 5 time units) per unit in
its bounded waits regardless of unit cooperation, and a unit that
ignores the graceful termination request is force-killed, with its
diagnostic sink closed exactly once during the whole teardown. -/
theorem stop_all_bounded_termination_spec (senv : String → StopEnv) (st : SupState)
    (hnd : (st.registry.map (fun u => u.2.sink)).Nodup) :
    (stop_all senv st).2 ≤ 10 * st.registry.length ∧
    ∀ u ∈ st.registry,
      (senv u.1).terminateRaises = false → 5 < (senv u.1).waitTime →
      (senv u.1).killRaises = false →
      Event.kill u.2.pid ∈ (stop_all senv st).1.events ∧
      closeCountFor ((stop_all senv st).1.events.drop st.events.length) u.2.sink = 1 := by
  constructor
  · rw [stop_all_time]
    have hb : ∀ x ∈ st.registry.map (stopTime senv), x ≤ 10 := by
      intro x hx
      obtain ⟨u, hu, he⟩ := List.mem_map.1 hx
      rw [← he]
      exact stopTime_le senv u
    calc (st.registry.map (stopTime senv)).sum
        ≤ (st.registry.map (stopTime senv)).length • 10 := List.sum_le_card_nsmul _ 10 hb
      _ = st.registry.length * 10 := by rw [List.length_map, smul_eq_mul]
      _ = 10 * st.registry.length := Nat.mul_comm _ _
  · intro u hu h1 h2 h3
    constructor
    · rw [stop_all_events]
      exact List.mem_append.2 (Or.inr (List.mem_flatten.2
        ⟨stopBlock senv u, List.mem_map_of_mem _ hu, stop_all_kill_event senv u h1 h2 h3⟩))
    · rw [stop_all_events, List.drop_left, closeCountFor_flatten_stopBlocks,
          length_filter_sink_eq_count]
      exact List.count_eq_one_of_mem hnd (List.mem_map_of_mem _ hu)

/-- Witness for C4: eth1 ignores the graceful request under the
adversarial environment and is force-killed; its sink is closed exactly
once and the total time spent in waits stays within the bound. -/
theorem stop_all_bounded_termination_witness :
    (stEx.registry.map (fun u => u.2.sink)).Nodup ∧
    5 < (senvHostile "eth1").waitTime ∧
    (stop_all senvHostile stEx).2 ≤ 10 * stEx.registry.length ∧
    Event.kill 1 ∈ (stop_all senvHostile stEx).1.events ∧
    closeCountFor ((stop_all senvHostile stEx).1.events.drop stEx.events.length) 1 = 1 := by
  obtain ⟨h1, h2⟩ := stop_all_bounded_termination_spec senvHostile stEx (by decide)
  obtain ⟨ha, hb⟩ := h2 ("eth1", { pid := 1, sink := 1 }) (by decide) rfl (by decide) rfl
  exact ⟨by decide, by decide, h1, ha, hb⟩

/-- C5: after start_all the registry key set is exactly the configured
interface set, without duplicates, and every monitoring pass that
completes leaves the key list identical — handles may be replaced, but
no key is ever added, removed or duplicated. -/
theorem registry_keyset_invariant_spec :
    (∀ cfg : Config,
      (regKeys (start_all cfg initState).registry).Nodup ∧
      (∀ x, x ∈ regKeys (start_all cfg initState).registry ↔ x ∈ cfg.interfaces)) ∧
    (∀ (cfg : Config) (env : String → UnitEnv) (st st2 : SupState),
      monitorPass cfg env st = Except.ok st2 →
      regKeys st2.registry = regKeys st.registry) := by
  constructor
  · intro cfg
    exact ⟨start_all_keys_nodup cfg, fun x => start_all_keys_mem cfg x⟩
  · intro cfg env st st2 h
    exact monitorPass_ok_keys cfg env st st2 h

/-- Witness for C5: the key list survives a monitoring pass in which
every unit was restarted. -/
theorem registry_keyset_invariant_witness :
    ((regKeys (start_all cfgEx initState).registry).Nodup ∧
     (∀ x, x ∈ regKeys (start_all cfgEx initState).registry ↔ x ∈ cfgEx.interfaces)) ∧
    regKeys stExAfterPass.registry = regKeys stEx.registry :=
  ⟨registry_keyset_invariant_spec.1 cfgEx,
   registry_keyset_invariant_spec.2 cfgEx envRestartEx stEx stExAfterPass rfl⟩

/-- C6: evaluation of the startup control flow.  An unreadable
configuration exits 1 and a missing tcpdump binary exits 2, as the
claim says; but an output directory that cannot be created makes the
unguarded module-level mkdir (src/tcpdump_service.py line 37) raise, so
the interpreter dies with an unhandled exception — process exit status
1, not the claimed 2 — before main's guarded mkdir branch can ever see
the condition.  In every failing case the process aborts before any
child is spawned. -/
theorem startup_exit_codes_eval :
    startup { configReadable := false, mkdirOkAtInit := true, binExists := true,
              dirExistsAtMain := true, mkdirOkAtMain := true } = StartupOutcome.exited 1 ∧
    startup { configReadable := true, mkdirOkAtInit := false, binExists := true,
              dirExistsAtMain := true, mkdirOkAtMain := true } = StartupOutcome.exited 1 ∧
    startup { configReadable := true, mkdirOkAtInit := true, binExists := false,
              dirExistsAtMain := true, mkdirOkAtMain := true } = StartupOutcome.exited 2 ∧
    startup { configReadable := true, mkdirOkAtInit := true, binExists := true,
              dirExistsAtMain := false, mkdirOkAtMain := false } = StartupOutcome.exited 2 :=
  ⟨rfl, rfl, rfl, rfl⟩

/-- C7: build_cmd is a pure function — equal configuration, interface
and output base give an equal result — and the produced argument vector
contains the full-capture snap length flag, the output file path
templated by the unit name, the rotation size and the retained-file
count, with the operator passthrough arguments appended verbatim at the
very end in configured order. -/
theorem build_cmd_pure_content_spec :
    (∀ (c1 c2 : Config) (i1 i2 b1 b2 : String),
      c1 = c2 → i1 = i2 → b1 = b2 → build_cmd c1 i1 b1 = build_cmd c2 i2 b2) ∧
    (∀ (cfg : Config) (iface outBase : String),
      (∃ l r, build_cmd cfg iface outBase = l ++ ["-s", "0"] ++ r) ∧
      (∃ l r, build_cmd cfg iface outBase = l ++ ["-w", outBase ++ "/" ++ iface ++ ".pcap"] ++ r) ∧
      (∃ l r, build_cmd cfg iface outBase = l ++ ["-C", toString cfg.rotateSizeMB] ++ r) ∧
      (∃ l r, build_cmd cfg iface outBase = l ++ ["-W", toString cfg.maxRotatedFiles] ++ r) ∧
      build_cmd cfg iface outBase =
        [cfg.tcpdumpBin, "-i", iface, "-s", "0", "-w", outBase ++ "/" ++ iface ++ ".pcap",
         "-C", toString cfg.rotateSizeMB, "-W", toString cfg.maxRotatedFiles]
          ++ cfg.extraArgs) := by
  constructor
  · rintro c1 c2 i1 i2 b1 b2 rfl rfl rfl
    rfl
  · intro cfg iface outBase
    refine ⟨⟨[cfg.tcpdumpBin, "-i", iface],
             ["-w", outBase ++ "/" ++ iface ++ ".pcap",
              "-C", toString cfg.rotateSizeMB, "-W", toString cfg.maxRotatedFiles]
               ++ cfg.extraArgs, rfl⟩,
           ⟨[cfg.tcpdumpBin, "-i", iface, "-s", "0"],
             ["-C", toString cfg.rotateSizeMB, "-W", toString cfg.maxRotatedFiles]
               ++ cfg.extraArgs, rfl⟩,
           ⟨[cfg.tcpdumpBin, "-i", iface, "-s", "0", "-w", outBase ++ "/" ++ iface ++ ".pcap"],
             ["-W", toString cfg.maxRotatedFiles] ++ cfg.extraArgs, rfl⟩,
           ⟨[cfg.tcpdumpBin, "-i", iface, "-s", "0", "-w", outBase ++ "/" ++ iface ++ ".pcap",
             "-C", toString cfg.rotateSizeMB],
             cfg.extraArgs, rfl⟩,
           rfl⟩

/-- Witness for C7 on the exemplar configuration. -/
theorem build_cmd_pure_content_witness :
    build_cmd cfgEx "eth0" cfgEx.outputDir = build_cmd cfgEx "eth0" cfgEx.outputDir ∧
    build_cmd cfgEx "eth0" cfgEx.outputDir =
      ["/usr/bin/tcpdump", "-i", "eth0", "-s", "0", "-w", "/var/log/tcpdump/eth0.pcap",
       "-C", "100", "-W", "20"] ++ cfgEx.extraArgs := by
  refine ⟨build_cmd_pure_content_spec.1 cfgEx cfgEx "eth0" "eth0"
    cfgEx.outputDir cfgEx.outputDir rfl rfl rfl, ?w⟩
  exact (build_cmd_pure_content_spec.2 cfgEx "eth0" cfgEx.outputDir).2.2.2.2

/-- C8 counterexample: in a pass in which a unit has exited and the
reopen of its diagnostic sink fails, the exception escapes the
monitoring loop — the open sits outside any try block — so the sequence
does not complete for every execution in which an exit is detected. -/
theorem monitor_open_failure_crash_cex :
    (envOpenFailEx "eth0").poll = some 1 ∧
    crashOf (monitorPass cfgEx envOpenFailEx stEx) = some (Crash.openFailed "eth0") :=
  ⟨rfl, rfl⟩

/-- C8 (amended with the proviso that the reopen and the respawn
succeed): the restart path never lets an exception escape the loop —
for any exit codes, and even when closing the stale sink raises, since
that close is the one operation the loop guards. -/
theorem monitor_no_crash_amended_spec (cfg : Config) (env : String → UnitEnv) (st : SupState)
    (henv : ∀ u ∈ st.registry, (env u.1).openOk = true ∧ (env u.1).spawnOk = true) :
    ∃ st2, monitorPass cfg env st = Except.ok st2 := by
  obtain ⟨st2, h1, _, _⟩ := monitorGo_total cfg env st.registry st henv
  exact ⟨st2, h1⟩

/-- Witness for C8: the pass in which all three units exited, every
close raises, and all reopens and respawns succeed, returns normally. -/
theorem monitor_no_crash_amended_witness :
    ∃ st2, monitorPass cfgEx envRestartEx stEx = Except.ok st2 :=
  monitor_no_crash_amended_spec cfgEx envRestartEx stEx (fun _ _ => ⟨rfl, rfl⟩)

/-- C9 counterexample: the source installs handle_sig directly as the
signal handler, so the interpreter may run the whole shutdown sequence
at any point of the loop.  The execution below detects the exit of
eth0 and closes its stale sink, receives the signal during the restart,
and runs the handler right there: the shutdown interleaves with the
in-flight restart of eth0, falsifying the claim that a shutdown step
can only run when no restart is in flight. -/
theorem signal_interleaving_cex :
    SysStep cfgEx envRestartEx senvCoop sys0 sys1 ∧
    SysStep cfgEx envRestartEx senvCoop sys1 sys2 ∧
    SysStep cfgEx envRestartEx senvCoop sys2 sys3 ∧
    restartInFlight sys2.pc "eth0" ∧
    sys3.exitedWith = some 0 ∧
    sys3.sup.registry = [] ∧
    ¬ (∀ s s2 : SysState, SysStep cfgEx envRestartEx senvCoop s s2 →
        s2.exitedWith = some 0 → ∀ iface, ¬ restartInFlight s.pc iface) := by
  refine ⟨?s1, ?s2, ?s3, Or.inl rfl, rfl, rfl, fun hclaim => ?s4⟩
  · exact SysStep.detect sys0 "eth0" { pid := 0, sink := 0 } 1 rfl rfl rfl rfl
  · exact SysStep.sigArrive sys1 rfl rfl
  · exact SysStep.handler sys2 rfl rfl
  · exact hclaim sys2 sys3 (SysStep.handler sys2 rfl rfl) rfl "eth0" (Or.inl rfl)

/-- C9 (amended): a delivered, still-pending signal enables the handler
step from every non-exited state — whatever the loop's position,
including mid-restart, because the code routes the signal neither
through a flag checked between iterations nor through a lock — and the
handler runs the whole shutdown synchronously in handler context: the
registry is emptied, the process exits with status 0, the shutdown
count rises by exactly one, and every registered unit's sink is
closed. -/
theorem signal_handler_shutdown_spec (cfg : Config) (menv : String → UnitEnv)
    (senv : String → StopEnv) (s : SysState)
    (h1 : s.sigPending = true) (h2 : s.exitedWith = none) :
    SysStep cfg menv senv s (handle_sig senv s) ∧
    (handle_sig senv s).sup.registry = [] ∧
    (handle_sig senv s).exitedWith = some 0 ∧
    (handle_sig senv s).shutdowns = s.shutdowns + 1 ∧
    (∀ u ∈ s.sup.registry, Event.closeSink u.2.sink ∈ (handle_sig senv s).sup.events) := by
  refine ⟨SysStep.handler s h1 h2, rfl, rfl, rfl, fun u hu => ?m⟩
  show Event.closeSink u.2.sink ∈ (stop_all senv
    { s.sup with events := s.sup.events ++ [Event.log "Received signal, shutting down..."] }).1.events
  rw [stop_all_events]
  exact List.mem_append.2 (Or.inr (List.mem_flatten.2
    ⟨stopBlock senv u, List.mem_map_of_mem _ hu, mem_stopBlock_close senv u⟩))

/-- Witness for C9 at the concrete mid-restart state sys2. -/
theorem signal_handler_shutdown_witness :
    SysStep cfgEx envRestartEx senvCoop sys2 (handle_sig senvCoop sys2) ∧
    (handle_sig senvCoop sys2).sup.registry = [] ∧
    (handle_sig senvCoop sys2).exitedWith = some 0 ∧
    (handle_sig senvCoop sys2).shutdowns = sys2.shutdowns + 1 ∧
    (∀ u ∈ sys2.sup.registry, Event.closeSink u.2.sink ∈ (handle_sig senvCoop sys2).sup.events) :=
  signal_handler_shutdown_spec cfgEx envRestartEx senvCoop sys2 rfl rfl

/-- C10: when the configured interface list repeats a name, start_all
spawns one child and opens one diagnostic sink per occurrence, the
registry maps the repeated name to the handle and sink of its last
occurrence only, the registry is strictly smaller than the number of
processes spawned, and the handle and sink of every non-last occurrence
are referenced by no registry entry. -/
theorem duplicate_interfaces_registry_spec (cfg : Config) (h : ¬ cfg.interfaces.Nodup) :
    spawnCount (start_all cfg initState).events = cfg.interfaces.length ∧
    openCount (start_all cfg initState).events = cfg.interfaces.length ∧
    (start_all cfg initState).registry.length < cfg.interfaces.length ∧
    (∀ x ∈ cfg.interfaces,
      lookupReg (start_all cfg initState).registry x
        = some { pid := lastOcc cfg.interfaces x, sink := lastOcc cfg.interfaces x }) ∧
    (∀ (j : Nat) (hj : j < cfg.interfaces.length),
      j ≠ lastOcc cfg.interfaces (cfg.interfaces.get ⟨j, hj⟩) →
      ∀ p ∈ (start_all cfg initState).registry, p.2.pid ≠ j ∧ p.2.sink ≠ j) := by
  refine ⟨?c1, ?c2, start_all_registry_length_lt cfg h, fun x hx => start_all_lookup cfg x hx, ?c5⟩
  · rw [show start_all cfg initState = cfg.interfaces.foldl (startOne cfg) initState from rfl,
        foldl_startOne_events]
    show spawnCount ([] ++ startEvents cfg 0 0 cfg.interfaces) = _
    rw [List.nil_append, spawnCount_startEvents]
  · rw [show start_all cfg initState = cfg.interfaces.foldl (startOne cfg) initState from rfl,
        foldl_startOne_events]
    show openCount ([] ++ startEvents cfg 0 0 cfg.interfaces) = _
    rw [List.nil_append, openCount_startEvents]
  · intro j hj hne p hp
    have hknd := start_all_keys_nodup cfg
    have hlk : lookupReg (start_all cfg initState).registry p.1 = some p.2 :=
      lookupReg_of_mem_of_nodup _ _ _ hknd hp
    have hmem : p.1 ∈ cfg.interfaces :=
      (start_all_keys_mem cfg p.1).1 (mem_regKeys_of_lookupReg _ _ _ hlk)
    have hlk2 := start_all_lookup cfg p.1 hmem
    have hpe : p.2 = { pid := lastOcc cfg.interfaces p.1, sink := lastOcc cfg.interfaces p.1 } :=
      Option.some_inj.1 (hlk.symm.trans hlk2)
    have hlt := lastOcc_lt_length cfg.interfaces p.1 hmem
    constructor
    · intro hpid
      apply hne
      have hj2 : j = lastOcc cfg.interfaces p.1 := by
        rw [← hpid, hpe]
      have hg : cfg.interfaces.get ⟨j, hj⟩ = p.1 := by
        have hfin : (⟨j, hj⟩ : Fin cfg.interfaces.length)
            = ⟨lastOcc cfg.interfaces p.1, hlt⟩ := Fin.ext hj2
        rw [hfin]
        exact get_lastOcc cfg.interfaces p.1 hmem hlt
      rw [hg, ← hj2]
    · intro hsink
      apply hne
      have hj2 : j = lastOcc cfg.interfaces p.1 := by
        rw [← hsink, hpe]
      have hg : cfg.interfaces.get ⟨j, hj⟩ = p.1 := by
        have hfin : (⟨j, hj⟩ : Fin cfg.interfaces.length)
            = ⟨lastOcc cfg.interfaces p.1, hlt⟩ := Fin.ext hj2
        rw [hfin]
        exact get_lastOcc cfg.interfaces p.1 hmem hlt
      rw [hg, ← hj2]

/-- Witness for C10 on the duplicated configuration: two spawns and two
sinks, one registry entry, which holds the second occurrence's pid and
sink. -/
theorem duplicate_interfaces_registry_witness :
    (¬ cfgDup.interfaces.Nodup) ∧
    spawnCount (start_all cfgDup initState).events = 2 ∧
    openCount (start_all cfgDup initState).events = 2 ∧
    (start_all cfgDup initState).registry.length < 2 ∧
    lookupReg (start_all cfgDup initState).registry "eth0" = some { pid := 1, sink := 1 } := by
  obtain ⟨hs, ho, hlen, hlk, hun⟩ := duplicate_interfaces_registry_spec cfgDup (by decide)
  exact ⟨by decide, hs, ho, hlen, hlk "eth0" (by decide)⟩

end TCPCapture
